import Mathlib

/-!
Shallow embedding of the rpicam-apps timelapse application
(rpicam_lapse.cpp, rpicam_lapse_encoder.hpp, lapse_options.hpp),
covering the capture-scheduling loop with drift correction, the
autofocus prelude, the encode pipeline with its outstanding-buffer
FIFO, and the keypress/signal cancellation poll.

Times are modelled as natural numbers of logical time units;
machine integers are Nat with explicit reductions modulo 2 ^ 64
(uint64_t frame_count) and the C cast to a signed 32-bit int.
-/

set_option maxHeartbeats 1000000

namespace RpicamLapse

/-- modulus of the C uint64_t type. -/
def UINT64_MOD : Nat := 2 ^ 64

/-- modulus of the C 32-bit int type. -/
def INT32_MOD : Nat := 2 ^ 32

/-- smallest value of a uint64 that no longer fits in a signed 32-bit int. -/
def INT32_HALF : Nat := 2 ^ 31

/-- value of the C cast (int) applied to an unsigned 64-bit quantity:
reduce modulo 2 ^ 32 and reinterpret as two's complement.  The result is
then sign-extended into the int64_t timestamp parameter. -/
def toInt32 (x : Nat) : Int :=
  if x % INT32_MOD < INT32_HALF then ((x % INT32_MOD : Nat) : Int)
  else ((x % INT32_MOD : Nat) : Int) - (INT32_MOD : Int)

/-- Modelled from the spec: the fixed default frame-rate constant used by
EncodeBuffer when no frame rate is configured (DEFAULT_FRAMERATE, declared
outside the provided sources).  The spec only requires it to be a fixed
constant; the frame rate itself is modelled as an optional natural number
and the division as integer division, following the spec's words. -/
def DEFAULT_FRAMERATE : Nat := 30

/-- model of a libcamera FrameBuffer: only the first plane's file
descriptor, which is what the encoder call forwards. -/
structure FrameBufferM where
  fd : Nat
  deriving DecidableEq

/-- model of a CompletedRequestPtr as EncodeBuffer and encodeBufferDone
use it: the buffer looked up for the still stream (none models a null
pointer), whether the mapped span data is non-null, the span's byte
length, and the request's metadata (a ControlList modelled as a list of
id/value pairs). -/
structure CompletedRequest where
  buffer : Option FrameBufferM
  mem_valid : Bool
  size : Nat
  metadata : List (Nat × Nat)
  deriving DecidableEq

/-- state of RPiCamLapseEncoder: whether StartEncoder has run
(encoder_ non-null), the uint64_t frame_count, the configured frame rate
(options_->framerate), the options' metadata string (GetOptions()->metadata,
an output file name), whether a metadata-ready callback is registered, and
the outstanding-buffer FIFO encode_buffer_queue_ (front = head). -/
structure RPiCamLapseEncoder where
  encoder_started : Bool
  frame_count : Nat
  framerate : Option Nat
  metadata_option : String
  metadata_ready_callback : Bool
  encode_buffer_queue : List CompletedRequest
  deriving DecidableEq

/-- arguments of the call encoder_->EncodeBuffer(fd, size, mem, info, timestamp_us)
that the claims are about: the plane file descriptor, the span byte
length, and the computed timestamp. -/
structure EncodeCall where
  fd : Nat
  size : Nat
  timestamp_us : Int
  deriving DecidableEq

/-- observable actions of one EncodeBuffer call, in program order:
pushing the request on the outstanding FIFO, then invoking the external
encoder. -/
inductive EncAction where
  | registerOutstanding (r : CompletedRequest)
  | callEncoder (c : EncodeCall)
  deriving DecidableEq

/-- embedding of RPiCamLapseEncoder::EncodeBuffer.  The assert on encoder_
and the throw on a null buffer or null mapping are errors; otherwise the
timestamp is (int)(frame_count * 1000000 / framerate-or-default), the
uint64_t frame_count increments, the request is pushed on the FIFO and
the encoder is invoked with the plane fd, the span size and the
timestamp, in that order. -/
def EncodeBuffer (st : RPiCamLapseEncoder) (req : CompletedRequest) :
    Except String (RPiCamLapseEncoder × List EncAction) :=
  if st.encoder_started = false then .error "assertion failed: encoder_"
  else
    match req.buffer with
    | none => .error "no buffer to encode"
    | some buf =>
      if req.mem_valid = false then .error "no buffer to encode"
      else
        let timestamp_us : Int :=
          toInt32 (st.frame_count * 1000000 % UINT64_MOD /
            (st.framerate.getD DEFAULT_FRAMERATE))
        .ok ({ st with
                frame_count := (st.frame_count + 1) % UINT64_MOD,
                encode_buffer_queue := st.encode_buffer_queue ++ [req] },
             [.registerOutstanding req,
              .callEncoder { fd := buf.fd, size := req.size, timestamp_us := timestamp_us }])

/-- embedding of RPiCamLapseEncoder::encodeBufferDone.  On an empty FIFO
the C++ throws before touching the queue, so the state component is
returned unchanged next to the error.  Otherwise the front request is
popped; the metadata-ready callback is invoked with the popped request's
metadata, before the pop, exactly when a callback is registered and the
options' metadata string is non-empty.  The ok payload records the
metadata handed to the callback (none when it was not invoked) and the
released (popped) request. -/
def encodeBufferDone (st : RPiCamLapseEncoder) :
    RPiCamLapseEncoder × Except String (Option (List (Nat × Nat)) × CompletedRequest) :=
  match st.encode_buffer_queue with
  | [] => (st, .error "no buffer available to return")
  | completed_request :: rest =>
    ({ st with encode_buffer_queue := rest },
     .ok ((if st.metadata_ready_callback = true ∧ st.metadata_option ≠ "" then
             some completed_request.metadata else none),
          completed_request))

/-- request validity as EncodeBuffer checks it: a non-null buffer and a
non-null mapped span. -/
def requestValid (r : CompletedRequest) : Bool :=
  r.buffer.isSome && r.mem_valid

/-- one pipeline event: a submission (EncodeBuffer) or an input-consumed
completion notification from the encoder (encodeBufferDone). -/
inductive PipeOp where
  | submit (r : CompletedRequest)
  | inputDone
  deriving DecidableEq

/-- requests submitted by a sequence of pipeline events, in order. -/
def submittedOf : List PipeOp → List CompletedRequest
  | [] => []
  | .submit r :: ops => r :: submittedOf ops
  | .inputDone :: ops => submittedOf ops

/-- number of completion notifications in a sequence of pipeline events. -/
def doneCount : List PipeOp → Nat
  | [] => 0
  | .submit _ :: ops => doneCount ops
  | .inputDone :: ops => doneCount ops + 1

/-- run of a sequence of pipeline events against the encoder state,
threading EncodeBuffer and encodeBufferDone; returns the final state and
the released requests in release order, or none if any call failed. -/
def runPipeline : RPiCamLapseEncoder → List PipeOp → Option (RPiCamLapseEncoder × List CompletedRequest)
  | st, [] => some (st, [])
  | st, .submit r :: ops =>
    match EncodeBuffer st r with
    | .error _ => none
    | .ok (st1, _) => runPipeline st1 ops
  | st, .inputDone :: ops =>
    match encodeBufferDone st with
    | (_, .error _) => none
    | (st1, .ok (_, released)) =>
      match runPipeline st1 ops with
      | none => none
      | some (st2, rels) => some (st2, released :: rels)

/-- scheduling counters of event_loop: the next scheduled capture
instant, the captured-frame counter and the delayed-frame counter.
Times are logical time units with the loop's start instant at 0. -/
structure ScheduleState where
  next_capture_time : Nat
  frame_count : Nat
  delayed_frame : Nat
  deriving DecidableEq

/-- message kinds the capture device can deliver to captureImage.
A Quit message would make std::get on the payload throw; the claims only
concern Timeout and RequestComplete, the two kinds captureImage handles. -/
inductive CamMsg where
  | Timeout
  | RequestComplete
  deriving DecidableEq

/-- operations captureImage performs on the capture device and encoder. -/
inductive CamOp where
  | startCamera
  | stopCamera
  | encodeBuffer
  deriving DecidableEq

/-- embedding of captureImage: StartCamera, Wait; on a Timeout message
StopCamera then StartCamera (a restart) and return without encoding; on
RequestComplete, StopCamera then EncodeBuffer.  Returns the device/encoder
operations in program order and whether a frame was encoded. -/
def captureImage (msg : CamMsg) : List CamOp × Bool :=
  match msg with
  | .Timeout => ([.startCamera, .stopCamera, .startCamera], false)
  | .RequestComplete => ([.startCamera, .stopCamera, .encodeBuffer], true)

/-- embedding of the counter updates event_loop performs after
captureImage returns: frame_count++, next_capture_time += interval, then
if the current time has passed the new next_capture_time, re-anchor
next_capture_time to the current time and increment delayed_frame. -/
def scheduleAdvance (interval : Nat) (s : ScheduleState) (current_time : Nat) : ScheduleState :=
  let s1 : ScheduleState :=
    { s with frame_count := s.frame_count + 1,
             next_capture_time := s.next_capture_time + interval }
  if s1.next_capture_time < current_time then
    { s1 with next_capture_time := current_time, delayed_frame := s1.delayed_frame + 1 }
  else s1

/-- one body of the scheduling loop after the timed wait expires: run
captureImage on the device message of this iteration, then apply the
counter updates.  The current_time argument is the clock value read after
the capture returns. -/
def eventLoopIter (interval : Nat) (s : ScheduleState) (msg : CamMsg) (current_time : Nat) :
    ScheduleState × List CamOp × Bool :=
  (scheduleAdvance interval s current_time, captureImage msg)

lemma scheduleAdvance_next_ge (interval : Nat) (s : ScheduleState) (current_time : Nat) :
    s.next_capture_time + interval ≤ (scheduleAdvance interval s current_time).next_capture_time := by
  unfold scheduleAdvance
  dsimp only
  split
  · next h => exact le_of_lt (by simpa using h)
  · exact le_refl _

/-- embedding of the scheduling while-loop of event_loop.  Oracles give,
for each iteration index, the key returned by the cancellation poll, the
device message of that iteration's capture, and the clock value observed
after the capture.  The loop runs while next_capture_time has not passed
end_capture_time; a key of 'x' (120) or 'X' (88) exits; nothing in the
program notifies the condition variable, so every timed wait expires.
Returns the final counters and the list of scheduled instants at which a
capture attempt was triggered.  The source loop never terminates when
interval = 0; the guard requires 0 < interval so that the embedding is
total, and the theorems assume a positive interval. -/
def event_loop_sched (interval end_capture_time : Nat) (keys : Nat → Nat) (msgs : Nat → CamMsg)
    (clock : Nat → Nat) (k : Nat) (s : ScheduleState) : ScheduleState × List Nat :=
  if h : s.next_capture_time ≤ end_capture_time ∧ 0 < interval then
    if keys k = 120 ∨ keys k = 88 then (s, [])
    else
      let s1 := (eventLoopIter interval s (msgs k) (clock k)).1
      let r := event_loop_sched interval end_capture_time keys msgs clock (k + 1) s1
      (r.1, s.next_capture_time :: r.2)
  else (s, [])
termination_by end_capture_time + 1 - s.next_capture_time
decreasing_by
  have hge := scheduleAdvance_next_ge interval s (clock k)
  simp only [eventLoopIter] at *
  omega

lemma event_loop_sched_spec (I D : Nat) (keys : Nat → Nat) (msgs : Nat → CamMsg)
    (clock : Nat → Nat) (hI : 0 < I)
    (hkeys : ∀ j, keys j ≠ 120 ∧ keys j ≠ 88)
    (hclock : ∀ j, clock j ≤ (j + 1) * I) :
    ∀ n k : Nat, ∀ s : ScheduleState, D / I + 1 - k = n → s.next_capture_time = k * I →
    (event_loop_sched I D keys msgs clock k s).1.frame_count = s.frame_count + n ∧
    (event_loop_sched I D keys msgs clock k s).1.delayed_frame = s.delayed_frame ∧
    (event_loop_sched I D keys msgs clock k s).2
      = (List.range' k n).map (fun j => j * I) := by
  intro n
  induction n with
  | zero =>
    intro k s hn hnext
    have hk : D / I + 1 ≤ k := by omega
    have hD : D < I * (D / I + 1) := Nat.lt_mul_div_succ D hI
    have hgt : D < k * I := by
      calc D < I * (D / I + 1) := hD
        _ ≤ I * k := Nat.mul_le_mul_left I hk
        _ = k * I := Nat.mul_comm I k
    have hguard : ¬ (s.next_capture_time ≤ D ∧ 0 < I) := by
      rw [hnext]
      omega
    rw [event_loop_sched, dif_neg hguard]
    simp [List.range']
  | succ m ih =>
    intro k s hn hnext
    obtain ⟨snext, sfc, sdel⟩ := s
    simp only at hnext
    subst hnext
    have hk : k ≤ D / I := by omega
    have hle : k * I ≤ D := by
      calc k * I ≤ (D / I) * I := Nat.mul_le_mul_right I hk
        _ ≤ D := Nat.div_mul_le_self D I
    have hkey : ¬ (keys k = 120 ∨ keys k = 88) := by
      have := hkeys k
      tauto
    have hnore : ¬ (k * I + I < clock k) := by
      have h1 := hclock k
      have h2 : (k + 1) * I = k * I + I := by ring
      omega
    have hs1 : (eventLoopIter I ⟨k * I, sfc, sdel⟩ (msgs k) (clock k)).1
        = ⟨(k + 1) * I, sfc + 1, sdel⟩ := by
      simp only [eventLoopIter, scheduleAdvance]
      rw [if_neg hnore]
      have h2 : (k + 1) * I = k * I + I := by ring
      simp [h2]
    have hrec := ih (k + 1) ⟨(k + 1) * I, sfc + 1, sdel⟩ (by omega) rfl
    rw [event_loop_sched, dif_pos ⟨hle, hI⟩, if_neg hkey]
    simp only [hs1]
    refine ⟨?_, ?_, ?_⟩
    · simp only [hrec.1]
      omega
    · simp only [hrec.2.1]
    · simp only [hrec.2.2, List.range'_succ, List.map_cons]

/-- C5: with a positive interval I, run duration D, no cancellation key,
no device timeout and no overrun, the scheduling loop triggers exactly
D / I + 1 capture attempts, at the scheduled instants 0, I, 2I, ...,
(D / I) * I — the first at the start instant — with no delayed frames.
In particular D < I gives exactly one capture, and I = 2000, D = 5000
gives three captures at 0, 2000 and 4000 (see the witness). -/
theorem C5_capture_count (I D : Nat) (keys : Nat → Nat) (msgs : Nat → CamMsg)
    (clock : Nat → Nat) (hI : 0 < I)
    (hkeys : ∀ j, keys j ≠ 120 ∧ keys j ≠ 88)
    (_hmsgs : ∀ j, msgs j = .RequestComplete)
    (hclock : ∀ j, clock j ≤ (j + 1) * I) :
    (event_loop_sched I D keys msgs clock 0 ⟨0, 0, 0⟩).1.frame_count = D / I + 1 ∧
    (event_loop_sched I D keys msgs clock 0 ⟨0, 0, 0⟩).1.delayed_frame = 0 ∧
    (event_loop_sched I D keys msgs clock 0 ⟨0, 0, 0⟩).2
      = (List.range (D / I + 1)).map (fun j => j * I) := by
  have h := event_loop_sched_spec I D keys msgs clock hI hkeys hclock
    (D / I + 1) 0 ⟨0, 0, 0⟩ (Nat.sub_zero _) (by simp)
  refine ⟨by simpa using h.1, h.2.1, ?_⟩
  rw [h.2.2, List.range_eq_range']

/-- witness for C5 at interval 2000 and duration 5000 with benign
oracles: exactly 3 captures, at logical times 0, 2000 and 4000, and no
delayed frames. -/
theorem C5_capture_count_witness :
    (event_loop_sched 2000 5000 (fun _ => 0) (fun _ => .RequestComplete)
        (fun j => j * 2000) 0 ⟨0, 0, 0⟩).1.frame_count = 3 ∧
    (event_loop_sched 2000 5000 (fun _ => 0) (fun _ => .RequestComplete)
        (fun j => j * 2000) 0 ⟨0, 0, 0⟩).1.delayed_frame = 0 ∧
    (event_loop_sched 2000 5000 (fun _ => 0) (fun _ => .RequestComplete)
        (fun j => j * 2000) 0 ⟨0, 0, 0⟩).2 = [0, 2000, 4000] := by
  have h := C5_capture_count 2000 5000 (fun _ => 0) (fun _ => .RequestComplete)
    (fun j => j * 2000) (by decide)
    (fun j => by simp)
    (fun j => rfl)
    (fun j => Nat.mul_le_mul_right 2000 (Nat.le_succ j))
  exact ⟨h.1.trans (by norm_num), h.2.1, h.2.2.trans (by decide)⟩

/-- signal values the process-level handler can have stored in
signal_received; noSignal models the reset value 0. -/
inductive SignalV where
  | noSignal
  | SIGINT
  | SIGUSR1
  | SIGUSR2
  | SIGPIPE
  deriving DecidableEq

/-- the two option flags get_key_or_signal consults. -/
structure PollOptions where
  keypress : Bool
  signal : Bool
  deriving DecidableEq

/-- embedding of get_key_or_signal.  Arguments: the options, the first
character of a pending stdin line (none when no input is ready), and the
stored signal state.  Returns the key (as its character code; 0 means no
key) and the signal state after the call.  A stored SIGINT returns 'x'
(120) immediately, before the keypress and signal branches, without
resetting the stored state; the signal branch maps SIGUSR1 to a newline
(10) and SIGUSR2 or SIGPIPE to 'x', then resets the stored state to 0. -/
def get_key_or_signal (options : PollOptions) (stdin_first : Option Nat)
    (signal_received : SignalV) : Nat × SignalV :=
  if signal_received = .SIGINT then (120, signal_received)
  else
    let key : Nat :=
      if options.keypress then (match stdin_first with | some c => c | none => 0) else 0
    if options.signal then
      ((if signal_received = .SIGUSR1 then 10
        else if signal_received = .SIGUSR2 ∨ signal_received = .SIGPIPE then 120
        else key),
       .noSignal)
    else (key, signal_received)

/-- libcamera AfState control value for an idle scan. -/
def AfStateIdle : Nat := 0

/-- libcamera AfState control value for a running scan. -/
def AfStateScanning : Nat := 1

/-- message kinds the autofocus-prelude loop distinguishes; a
RequestComplete carries the af_state read from the frame metadata. -/
inductive AfMsg where
  | Timeout
  | Quit
  | RequestComplete (af_state : Nat)
  deriving DecidableEq

/-- outcome of one iteration of the autofocus-prelude loop:
continue polling (recording whether the device was restarted first),
return from the loop without the prelude completing (recording whether
the camera was stopped first), or complete the prelude (break). -/
inductive AfOutcome where
  | continueLoop (restarted : Bool)
  | returnNoComplete (stoppedCamera : Bool)
  | completed
  deriving DecidableEq

/-- embedding of one iteration of the autofocus-prelude loop of
event_loop: a Timeout message restarts the device (stop+start) and
continues; a Quit message returns without completing; on RequestComplete
the cancellation poll runs, an 'x'/'X' key stops the camera and returns
without completing, an af_state of Idle or Scanning continues the loop,
and any other af_state completes the prelude.  The key argument is the
value get_key_or_signal returned at this iteration's poll point. -/
def afPreludeStep (msg : AfMsg) (key : Nat) : AfOutcome :=
  match msg with
  | .Timeout => .continueLoop true
  | .Quit => .returnNoComplete false
  | .RequestComplete af_state =>
    if key = 120 ∨ key = 88 then .returnNoComplete true
    else if af_state = AfStateIdle then .continueLoop false
    else if af_state = AfStateScanning then .continueLoop false
    else .completed

lemma EncodeBuffer_ok (st : RPiCamLapseEncoder) (req : CompletedRequest) (buf : FrameBufferM)
    (hstart : st.encoder_started = true) (hbuf : req.buffer = some buf)
    (hmem : req.mem_valid = true) :
    EncodeBuffer st req = .ok
      ({ st with frame_count := (st.frame_count + 1) % UINT64_MOD,
                 encode_buffer_queue := st.encode_buffer_queue ++ [req] },
       [.registerOutstanding req,
        .callEncoder
          { fd := buf.fd, size := req.size,
            timestamp_us := toInt32 (st.frame_count * 1000000 % UINT64_MOD /
              (st.framerate.getD DEFAULT_FRAMERATE)) }]) := by
  simp [EncodeBuffer, hstart, hbuf, hmem]

lemma toInt32_of_lt (x : Nat) (h : x < INT32_HALF) : toInt32 x = (x : Int) := by
  have hlt : x < INT32_MOD := by
    have : INT32_HALF < INT32_MOD := by norm_num [INT32_HALF, INT32_MOD]
    omega
  simp [toInt32, Nat.mod_eq_of_lt hlt, h]

lemma toInt32_lt_half (x : Nat) : toInt32 x < (INT32_HALF : Int) := by
  have hmod : x % INT32_MOD < INT32_MOD := Nat.mod_lt _ (by norm_num [INT32_MOD])
  have hval : INT32_HALF = 2 ^ 31 := rfl
  have hval2 : INT32_MOD = 2 ^ 32 := rfl
  unfold toInt32
  split
  · next h => exact_mod_cast h
  · have h1 : ((x % INT32_MOD : Nat) : Int) < (INT32_MOD : Int) := by exact_mod_cast hmod
    have h2 : (0 : Int) < (INT32_HALF : Int) := by
      rw [hval]; positivity
    omega

/-- extraction of the encoder invocations from an action list, keeping
their order. -/
def callsOf : List EncAction → List EncodeCall
  | [] => []
  | .registerOutstanding _ :: rest => callsOf rest
  | .callEncoder c :: rest => c :: callsOf rest

/-- timestamps handed to the external encoder by one EncodeBuffer
result (empty on error). -/
def forwardedTimestamps (r : Except String (RPiCamLapseEncoder × List EncAction)) : List Int :=
  match r with
  | .error _ => []
  | .ok (_, acts) => (callsOf acts).map EncodeCall.timestamp_us

/-- C6 counterexample: at frame_count 64425 with the frame rate unset
(default 30), the ideal timestamp 64425 * 1000000 / 30 = 2147500000
reaches 2 ^ 31, and the timestamp actually handed to the encoder is the
32-bit truncation -2147467296, not the ideal value — so the claimed
unconditional equality fails. -/
theorem C6_counterexample :
    forwardedTimestamps (EncodeBuffer ⟨true, 64425, none, "", false, []⟩
        ⟨some ⟨7⟩, true, 100, []⟩) = [(-2147467296 : Int)] ∧
    (-2147467296 : Int) ≠ ((64425 * 1000000 / 30 : Nat) : Int) := by
  constructor
  · rfl
  · decide

/-- C6 as amended: for every EncodeBuffer call with the encoder started
and a valid request (before frame_count arithmetic can wrap uint64), the
timestamp handed to the encoder is the 32-bit int truncation of
frame_count * 1000000 / effectiveFrameRate (integer division, frame rate
defaulting to DEFAULT_FRAMERATE when unset) — equal to the ideal value
only while it fits in 31 bits; frame_count then increments by 1, the
request is registered outstanding before the encoder is invoked, and the
plane descriptor, byte length and computed timestamp are forwarded. -/
theorem C6_encode_behavior (st : RPiCamLapseEncoder) (req : CompletedRequest)
    (buf : FrameBufferM) (hstart : st.encoder_started = true)
    (hbuf : req.buffer = some buf) (hmem : req.mem_valid = true)
    (hfc : st.frame_count * 1000000 < UINT64_MOD) :
    EncodeBuffer st req = .ok
      ({ st with frame_count := st.frame_count + 1,
                 encode_buffer_queue := st.encode_buffer_queue ++ [req] },
       [.registerOutstanding req,
        .callEncoder
          { fd := buf.fd, size := req.size,
            timestamp_us := toInt32 (st.frame_count * 1000000 /
              (st.framerate.getD DEFAULT_FRAMERATE)) }]) := by
  rw [EncodeBuffer_ok st req buf hstart hbuf hmem]
  have hm : UINT64_MOD = 18446744073709551616 := by norm_num [UINT64_MOD]
  have h1 : st.frame_count * 1000000 % UINT64_MOD = st.frame_count * 1000000 :=
    Nat.mod_eq_of_lt hfc
  have h2 : (st.frame_count + 1) % UINT64_MOD = st.frame_count + 1 := by
    apply Nat.mod_eq_of_lt
    omega
  rw [h1, h2]

/-- witness for C6's amended theorem at frame_count 0 with defaults: the
forwarded call carries fd 3, size 5 and timestamp 0, and the request is
registered before the encoder call. -/
theorem C6_encode_behavior_witness :
    EncodeBuffer ⟨true, 0, none, "", false, []⟩ ⟨some ⟨3⟩, true, 5, []⟩ = .ok
      (⟨true, 1, none, "", false, [⟨some ⟨3⟩, true, 5, []⟩]⟩,
       [.registerOutstanding ⟨some ⟨3⟩, true, 5, []⟩,
        .callEncoder ⟨3, 5, 0⟩]) :=
  (C6_encode_behavior ⟨true, 0, none, "", false, []⟩ ⟨some ⟨3⟩, true, 5, []⟩ ⟨3⟩
    rfl rfl rfl (by decide)).trans (by rfl)

/-- C10: the timestamp EncodeBuffer forwards goes through a 32-bit int
cast although the encoder parameter is 64-bit: whenever the ideal
timestamp frame_count * 1000000 / effectiveFrameRate is below 2 ^ 31 the
forwarded timestamp equals the ideal value, and whenever the ideal
timestamp reaches 2 ^ 31 the forwarded timestamp is its 32-bit
truncation, which differs from the ideal 64-bit value. -/
theorem C10_timestamp_truncation (st : RPiCamLapseEncoder) (req : CompletedRequest)
    (buf : FrameBufferM) (hstart : st.encoder_started = true)
    (hbuf : req.buffer = some buf) (hmem : req.mem_valid = true)
    (hfc : st.frame_count * 1000000 < UINT64_MOD) :
    (st.frame_count * 1000000 / (st.framerate.getD DEFAULT_FRAMERATE) < INT32_HALF →
      forwardedTimestamps (EncodeBuffer st req)
        = [((st.frame_count * 1000000 / (st.framerate.getD DEFAULT_FRAMERATE) : Nat) : Int)]) ∧
    (INT32_HALF ≤ st.frame_count * 1000000 / (st.framerate.getD DEFAULT_FRAMERATE) →
      forwardedTimestamps (EncodeBuffer st req)
        = [toInt32 (st.frame_count * 1000000 / (st.framerate.getD DEFAULT_FRAMERATE))] ∧
      toInt32 (st.frame_count * 1000000 / (st.framerate.getD DEFAULT_FRAMERATE))
        ≠ ((st.frame_count * 1000000 / (st.framerate.getD DEFAULT_FRAMERATE) : Nat) : Int)) := by
  rw [EncodeBuffer_ok st req buf hstart hbuf hmem, Nat.mod_eq_of_lt hfc]
  constructor
  · intro hlt
    simp [forwardedTimestamps, callsOf, toInt32_of_lt _ hlt]
  · intro hge
    refine ⟨by simp [forwardedTimestamps, callsOf], ?_⟩
    intro heq
    have h1 := toInt32_lt_half (st.frame_count * 1000000 / (st.framerate.getD DEFAULT_FRAMERATE))
    rw [heq] at h1
    have h2 : ((INT32_HALF : Nat) : Int)
        ≤ ((st.frame_count * 1000000 / (st.framerate.getD DEFAULT_FRAMERATE) : Nat) : Int) := by
      exact_mod_cast hge
    omega

/-- witness for C10 at frame_count 100000 with the frame rate unset: the
ideal timestamp 3333333333 exceeds 2 ^ 31 and the forwarded timestamp is
its truncation, different from the ideal value. -/
theorem C10_timestamp_truncation_witness :
    forwardedTimestamps (EncodeBuffer ⟨true, 100000, none, "", false, []⟩
        ⟨some ⟨1⟩, true, 4, []⟩) = [toInt32 (100000 * 1000000 / 30)] ∧
    toInt32 (100000 * 1000000 / 30) ≠ ((100000 * 1000000 / 30 : Nat) : Int) :=
  (C10_timestamp_truncation ⟨true, 100000, none, "", false, []⟩ ⟨some ⟨1⟩, true, 4, []⟩
    ⟨1⟩ rfl rfl rfl (by decide)).2 (by decide)

/-- C1: in every scheduling iteration whose capture completes
successfully (a RequestComplete message), frame_count increments by 1
and next_capture_time advances by exactly one interval; when the
completion time exceeds that newly advanced instant, next_capture_time
is re-anchored to the completion time and delayed_frame increments by
exactly 1; otherwise delayed_frame is unchanged. -/
theorem C1_drift_correction (interval : Nat) (s : ScheduleState) (now : Nat) :
    (eventLoopIter interval s .RequestComplete now).1.frame_count = s.frame_count + 1 ∧
    (eventLoopIter interval s .RequestComplete now).2.2 = true ∧
    (s.next_capture_time + interval < now →
      (eventLoopIter interval s .RequestComplete now).1.next_capture_time = now ∧
      (eventLoopIter interval s .RequestComplete now).1.delayed_frame = s.delayed_frame + 1) ∧
    (¬ s.next_capture_time + interval < now →
      (eventLoopIter interval s .RequestComplete now).1.next_capture_time
          = s.next_capture_time + interval ∧
      (eventLoopIter interval s .RequestComplete now).1.delayed_frame = s.delayed_frame) := by
  simp only [eventLoopIter, scheduleAdvance, captureImage]
  split <;> simp_all

/-- witness for C1 at interval 10, state (0, 0, 0), completion time 25:
the cycle overran, so the next instant is re-anchored to 25 and the
delayed-frame counter becomes 1. -/
theorem C1_drift_correction_witness :
    (eventLoopIter 10 ⟨0, 0, 0⟩ .RequestComplete 25).1.next_capture_time = 25 ∧
    (eventLoopIter 10 ⟨0, 0, 0⟩ .RequestComplete 25).1.delayed_frame = 1 :=
  (C1_drift_correction 10 ⟨0, 0, 0⟩ 25).2.2.1 (by decide)

/-- C2 counterexample: at interval 1000, state (0, 0, 0) and a device
Timeout during the capture, the device is indeed restarted and nothing
is encoded, but the schedule still advances: next_capture_time becomes
1000 (not left at 0) and frame_count becomes 1 (not left at 0), contrary
to the claim that neither changes on a timeout. -/
theorem C2_counterexample :
    (eventLoopIter 1000 ⟨0, 0, 0⟩ .Timeout 0).2.1
        = [.startCamera, .stopCamera, .startCamera] ∧
    (eventLoopIter 1000 ⟨0, 0, 0⟩ .Timeout 0).2.2 = false ∧
    (eventLoopIter 1000 ⟨0, 0, 0⟩ .Timeout 0).1.next_capture_time ≠ 0 ∧
    (eventLoopIter 1000 ⟨0, 0, 0⟩ .Timeout 0).1.frame_count ≠ 0 := by decide

/-- C2 as amended: on a device timeout during the capture the device is
restarted (stop then start) and no frame is encoded, but event_loop
cannot observe the timeout (captureImage returns void), so the schedule
advances exactly as on success: frame_count increments by 1 and
next_capture_time advances by one interval, re-anchored to the
completion time when that is later; the timed-out instant is not
retried. -/
theorem C2_timeout_still_advances (interval : Nat) (s : ScheduleState) (now : Nat) :
    (eventLoopIter interval s .Timeout now).2.1
        = [.startCamera, .stopCamera, .startCamera] ∧
    (eventLoopIter interval s .Timeout now).2.2 = false ∧
    (eventLoopIter interval s .Timeout now).1.frame_count = s.frame_count + 1 ∧
    (s.next_capture_time + interval < now →
      (eventLoopIter interval s .Timeout now).1.next_capture_time = now) ∧
    (¬ s.next_capture_time + interval < now →
      (eventLoopIter interval s .Timeout now).1.next_capture_time
          = s.next_capture_time + interval) := by
  simp only [eventLoopIter, scheduleAdvance, captureImage]
  split <;> simp_all

/-- witness for C2's amended theorem at interval 1000, state (0, 0, 0),
completion time 0: the restart happened, nothing was encoded, and the
schedule advanced to 1000. -/
theorem C2_timeout_still_advances_witness :
    (eventLoopIter 1000 ⟨0, 0, 0⟩ .Timeout 0).2.1
        = [.startCamera, .stopCamera, .startCamera] ∧
    (eventLoopIter 1000 ⟨0, 0, 0⟩ .Timeout 0).1.next_capture_time = 1000 :=
  ⟨(C2_timeout_still_advances 1000 ⟨0, 0, 0⟩ 0).1,
   (C2_timeout_still_advances 1000 ⟨0, 0, 0⟩ 0).2.2.2.2 (by decide)⟩

/-- C4: an input-consumed notification delivered while the
outstanding-buffer FIFO is empty yields the unrecoverable error thrown
by encodeBufferDone, never a silent no-op, and the state is unchanged by
the failed call. -/
theorem C4_empty_done_fatal (st : RPiCamLapseEncoder)
    (h : st.encode_buffer_queue = []) :
    (encodeBufferDone st).2 = .error "no buffer available to return" ∧
    (encodeBufferDone st).1 = st := by
  simp [encodeBufferDone, h]

/-- witness for C4 at a concrete encoder state with an empty FIFO. -/
theorem C4_empty_done_fatal_witness :
    (encodeBufferDone ⟨true, 5, none, "", false, []⟩).2
        = .error "no buffer available to return" ∧
    (encodeBufferDone ⟨true, 5, none, "", false, []⟩).1
        = ⟨true, 5, none, "", false, []⟩ :=
  C4_empty_done_fatal ⟨true, 5, none, "", false, []⟩ rfl

/-- C7 counterexample: with a registered callback, a non-empty options
metadata string, and a front request whose own metadata is empty, the
notification is still invoked (with the empty metadata), although the
claim requires no notification when the popped request carries empty
metadata. -/
theorem C7_counterexample :
    (encodeBufferDone ⟨true, 0, none, "metadata.json", true,
        [⟨some ⟨0⟩, true, 1, []⟩]⟩).2
      = .ok (some [], ⟨some ⟨0⟩, true, 1, []⟩) := by
  simp [encodeBufferDone]

/-- C7 as amended: when a completion notification pops an outstanding
buffer, the metadata-ready notification is invoked (before the pop, with
the popped request's metadata) if and only if a metadata-ready callback
is registered and the configured options metadata string is non-empty;
the popped request's own metadata content is not consulted.  In all
other cases the buffer is released with no notification. -/
theorem C7_metadata_notification (st : RPiCamLapseEncoder) (r : CompletedRequest)
    (rest : List CompletedRequest) (h : st.encode_buffer_queue = r :: rest) :
    (st.metadata_ready_callback = true ∧ st.metadata_option ≠ "" →
      (encodeBufferDone st).2 = .ok (some r.metadata, r)) ∧
    (¬ (st.metadata_ready_callback = true ∧ st.metadata_option ≠ "") →
      (encodeBufferDone st).2 = .ok (none, r)) ∧
    (encodeBufferDone st).1.encode_buffer_queue = rest := by
  simp only [encodeBufferDone, h]
  constructor
  · intro hc
    simp [hc]
  constructor
  · intro hc
    simp [hc]
  · trivial

/-- witness for C7's amended theorem: with a registered callback and
options metadata string "m", the notification carries the front
request's metadata and the FIFO drops its front. -/
theorem C7_metadata_notification_witness :
    (encodeBufferDone ⟨true, 0, none, "m", true, [⟨some ⟨1⟩, true, 2, [(3, 4)]⟩]⟩).2
        = .ok (some [(3, 4)], ⟨some ⟨1⟩, true, 2, [(3, 4)]⟩) ∧
    (encodeBufferDone ⟨true, 0, none, "m", true,
        [⟨some ⟨1⟩, true, 2, [(3, 4)]⟩]⟩).1.encode_buffer_queue = [] :=
  ⟨(C7_metadata_notification ⟨true, 0, none, "m", true, [⟨some ⟨1⟩, true, 2, [(3, 4)]⟩]⟩
      ⟨some ⟨1⟩, true, 2, [(3, 4)]⟩ [] rfl).1 (by decide),
   (C7_metadata_notification ⟨true, 0, none, "m", true, [⟨some ⟨1⟩, true, 2, [(3, 4)]⟩]⟩
      ⟨some ⟨1⟩, true, 2, [(3, 4)]⟩ [] rfl).2.2⟩

/-- C8 counterexample: with signal mode enabled and a stored SIGINT, the
poll reports abort (120) but the stored state is not reset to 0, and an
immediately following poll with no new signal reports abort again —
contrary to the claim that the stored signal state is reset after being
read once. -/
theorem C8_counterexample :
    (get_key_or_signal ⟨false, true⟩ none .SIGINT).1 = 120 ∧
    (get_key_or_signal ⟨false, true⟩ none .SIGINT).2 = .SIGINT ∧
    (get_key_or_signal ⟨false, true⟩ none
        ((get_key_or_signal ⟨false, true⟩ none .SIGINT).2)).1 = 120 := by decide

/-- C8 as amended: a stored SIGINT short-circuits the poll to abort
(120) before any other trigger is evaluated, but is not reset, so
subsequent polls report it again (level-triggered); the reset to 0
happens exactly when the signal-mode branch runs, i.e. for a non-SIGINT
stored signal with options.signal enabled (SIGUSR1 / SIGUSR2 / SIGPIPE
are edge-triggered); with signal mode disabled the stored state is left
unchanged. -/
theorem C8_poll_reset (options : PollOptions) (stdin_first : Option Nat) (s : SignalV) :
    (s = .SIGINT → get_key_or_signal options stdin_first s = (120, .SIGINT)) ∧
    (options.signal = true → s ≠ .SIGINT →
      (get_key_or_signal options stdin_first s).2 = .noSignal) ∧
    (options.signal = false →
      (get_key_or_signal options stdin_first s).2 = s) := by
  refine ⟨fun h => by simp [get_key_or_signal, h], ?_, ?_⟩
  · intro hs hne
    simp [get_key_or_signal, hne, hs]
  · intro hs
    by_cases h : s = .SIGINT
    · simp [get_key_or_signal, h]
    · simp [get_key_or_signal, h, hs]

/-- witness for C8's amended theorem: with signal mode on and a stored
SIGUSR2, the poll resets the stored state to 0. -/
theorem C8_poll_reset_witness :
    (get_key_or_signal ⟨false, true⟩ none .SIGUSR2).2 = .noSignal :=
  (C8_poll_reset ⟨false, true⟩ none .SIGUSR2).2.1 rfl (by decide)

lemma submittedOf_take_succ_submit (r : CompletedRequest) (ops : List PipeOp) (n : Nat) :
    submittedOf ((PipeOp.submit r :: ops).take (n + 1)) = r :: submittedOf (ops.take n) := by
  simp [List.take_succ_cons, submittedOf]

lemma doneCount_take_succ_submit (r : CompletedRequest) (ops : List PipeOp) (n : Nat) :
    doneCount ((PipeOp.submit r :: ops).take (n + 1)) = doneCount (ops.take n) := by
  simp [List.take_succ_cons, doneCount]

lemma doneCount_take_succ_done (ops : List PipeOp) (n : Nat) :
    doneCount ((PipeOp.inputDone :: ops).take (n + 1)) = doneCount (ops.take n) + 1 := by
  simp [List.take_succ_cons, doneCount]

lemma runPipeline_spec (ops : List PipeOp) : ∀ st : RPiCamLapseEncoder,
    st.encoder_started = true →
    (∀ r ∈ submittedOf ops, requestValid r = true) →
    (∀ n : Nat, doneCount (ops.take n) ≤
        st.encode_buffer_queue.length + (submittedOf (ops.take n)).length) →
    ∃ st2 : RPiCamLapseEncoder,
      runPipeline st ops
        = some (st2, (st.encode_buffer_queue ++ submittedOf ops).take (doneCount ops)) ∧
      st2.encode_buffer_queue
        = (st.encode_buffer_queue ++ submittedOf ops).drop (doneCount ops) := by
  induction ops with
  | nil =>
    intro st _ _ _
    exact ⟨st, by simp [runPipeline, submittedOf, doneCount],
      by simp [submittedOf, doneCount]⟩
  | cons op ops ih =>
    intro st hstart hvalid hpre
    cases op with
    | submit r =>
      have hr : requestValid r = true := hvalid r (by simp [submittedOf])
      obtain ⟨buf, hbuf⟩ : ∃ buf, r.buffer = some buf := by
        cases hb : r.buffer with
        | none => rw [requestValid, hb] at hr; simp at hr
        | some b => exact ⟨b, rfl⟩
      have hmem : r.mem_valid = true := by
        rw [requestValid, hbuf] at hr
        simpa using hr
      obtain ⟨st2, h1, h2⟩ := ih
        { st with frame_count := (st.frame_count + 1) % UINT64_MOD,
                  encode_buffer_queue := st.encode_buffer_queue ++ [r] }
        hstart
        (fun q hq => hvalid q (by simp [submittedOf, hq]))
        (fun n => by
          have hn := hpre (n + 1)
          rw [doneCount_take_succ_submit, submittedOf_take_succ_submit] at hn
          simp only [List.length_cons, List.length_append, List.length_singleton] at hn ⊢
          omega)
      have hstep : runPipeline st (PipeOp.submit r :: ops)
          = runPipeline
              { st with frame_count := (st.frame_count + 1) % UINT64_MOD,
                        encode_buffer_queue := st.encode_buffer_queue ++ [r] } ops := by
        rw [runPipeline, EncodeBuffer_ok st r buf hstart hbuf hmem]
      refine ⟨st2, ?_, ?_⟩
      · rw [hstep, h1]
        simp [submittedOf, doneCount]
      · rw [h2]
        simp [submittedOf, doneCount]
    | inputDone =>
      have hne : st.encode_buffer_queue ≠ [] := by
        have := hpre 1
        simp [List.take_succ_cons, doneCount, submittedOf] at this
        intro hq
        rw [hq] at this
        simp at this
      obtain ⟨c, rest, hq⟩ : ∃ c rest, st.encode_buffer_queue = c :: rest := by
        cases hcase : st.encode_buffer_queue with
        | nil => exact absurd hcase hne
        | cons c rest => exact ⟨c, rest, rfl⟩
      obtain ⟨st2, h1, h2⟩ := ih
        { st with encode_buffer_queue := rest }
        hstart
        (fun q hqm => hvalid q (by simp [submittedOf, hqm]))
        (fun n => by
          have hn := hpre (n + 1)
          rw [doneCount_take_succ_done] at hn
          simp only [List.take_succ_cons, submittedOf] at hn
          simp only [hq, List.length_cons] at hn ⊢
          omega)
      have hdone : encodeBufferDone st
          = ({ st with encode_buffer_queue := rest },
             .ok ((if st.metadata_ready_callback = true ∧ st.metadata_option ≠ ""
                   then some c.metadata else none), c)) := by
        rw [encodeBufferDone.eq_def, hq]
      have hstep : runPipeline st (PipeOp.inputDone :: ops)
          = (match runPipeline { st with encode_buffer_queue := rest } ops with
             | none => none
             | some (st3, rels) => some (st3, c :: rels)) := by
        rw [runPipeline, hdone]
      refine ⟨st2, ?_, ?_⟩
      · rw [hstep, h1]
        simp [hq, submittedOf, doneCount, List.take_succ_cons]
      · rw [h2]
        simp [hq, submittedOf, doneCount, List.drop_succ_cons]

/-- C3: for every sequence of submissions and input-consumed completion
notifications in which, at every point, completions never outnumber
submissions, and whose completion and submission counts balance, running
the pipeline from an empty FIFO succeeds and the sequence of released
requests equals the sequence of submitted requests: release order equals
submission order, each completion releasing the earliest outstanding
buffer. -/
theorem C3_fifo_release_order (ops : List PipeOp) (st : RPiCamLapseEncoder)
    (hstart : st.encoder_started = true) (hq : st.encode_buffer_queue = [])
    (hvalid : ∀ r ∈ submittedOf ops, requestValid r = true)
    (hpre : ∀ n : Nat, doneCount (ops.take n) ≤ (submittedOf (ops.take n)).length)
    (hbal : doneCount ops = (submittedOf ops).length) :
    ∃ st2 : RPiCamLapseEncoder,
      runPipeline st ops = some (st2, submittedOf ops) ∧
      st2.encode_buffer_queue = [] := by
  obtain ⟨st2, h1, h2⟩ := runPipeline_spec ops st hstart hvalid
    (fun n => by rw [hq]; simpa using hpre n)
  refine ⟨st2, ?_, ?_⟩
  · rw [h1, hq]
    simp [hbal]
  · rw [h2, hq]
    simp [hbal]

/-- witness for C3: three submissions interleaved with three
completions; the released sequence equals the submitted sequence in
order. -/
theorem C3_fifo_release_order_witness :
    ∃ st2 : RPiCamLapseEncoder,
      runPipeline ⟨true, 0, none, "", false, []⟩
        [.submit ⟨some ⟨1⟩, true, 1, []⟩, .submit ⟨some ⟨2⟩, true, 2, []⟩,
         .inputDone, .submit ⟨some ⟨3⟩, true, 3, []⟩, .inputDone, .inputDone]
      = some (st2, [⟨some ⟨1⟩, true, 1, []⟩, ⟨some ⟨2⟩, true, 2, []⟩,
                    ⟨some ⟨3⟩, true, 3, []⟩]) ∧
      st2.encode_buffer_queue = [] := by
  have h := C3_fifo_release_order
    [.submit ⟨some ⟨1⟩, true, 1, []⟩, .submit ⟨some ⟨2⟩, true, 2, []⟩,
     .inputDone, .submit ⟨some ⟨3⟩, true, 3, []⟩, .inputDone, .inputDone]
    ⟨true, 0, none, "", false, []⟩ rfl rfl
    (by intro r hr; fin_cases hr <;> rfl)
    (by
      intro n
      match n with
      | 0 => decide
      | 1 => decide
      | 2 => decide
      | 3 => decide
      | 4 => decide
      | 5 => decide
      | n + 6 =>
        rw [List.take_of_length_le (by simp)]
        decide)
    rfl
  simpa [submittedOf] using h

/-- C9: in the autofocus prelude, a Timeout message never terminates the
loop: it restarts the device and continues; when the poll has observed
abort ('x' or 'X') on a completed request, the prelude returns
immediately without completing; otherwise an af_state of Idle or
Scanning continues the loop and any other af_state completes the
prelude. -/
theorem C9_af_prelude_step (key af_state : Nat) :
    (afPreludeStep .Timeout key = .continueLoop true) ∧
    (key = 120 ∨ key = 88 →
      afPreludeStep (.RequestComplete af_state) key = .returnNoComplete true) ∧
    (¬ (key = 120 ∨ key = 88) →
      ((af_state = AfStateIdle ∨ af_state = AfStateScanning →
        afPreludeStep (.RequestComplete af_state) key = .continueLoop false) ∧
       (af_state ≠ AfStateIdle → af_state ≠ AfStateScanning →
        afPreludeStep (.RequestComplete af_state) key = .completed))) := by
  refine ⟨rfl, fun h => by simp [afPreludeStep, h], fun h => ⟨fun haf => ?_, fun h1 h2 => ?_⟩⟩
  · rcases haf with haf | haf <;> simp [afPreludeStep, h, haf, AfStateIdle, AfStateScanning]
  · simp [afPreludeStep, h, h1, h2]

/-- witness for C9 at key 0 (no cancellation) and af_state 2 (focused):
the prelude completes. -/
theorem C9_af_prelude_step_witness :
    afPreludeStep (.RequestComplete 2) 0 = .completed :=
  ((C9_af_prelude_step 0 2).2.2 (by decide)).2 (by decide) (by decide)

end RpicamLapse
